import Mathlib

/-
Verification of the multi-file tabular data QA engine (src/app.py) against
its natural-language specification.

The Python program is shallowly embedded below.  A pandas DataFrame is a
`Table` (column names plus rows of optional cell values); the outcomes of
the external pandas CSV-reading calls are abstracted by the `CsvOutcome` a
payload produces under each of the two attempted encodings; Python
exception propagation is made explicit with `Except`.
-/

namespace DataQA

/-- A decoded table: ordered column names and rows of cells aligned with
the columns.  A cell is `none` when the value is null/absent. -/
structure Table where
  columns : List String
  rows : List (List (Option String))
deriving DecidableEq, Repr, Inhabited

/-- Python exceptions that matter to the embedded code paths. -/
inductive PyError where
  | unicodeDecodeError
  | parserError
  | otherError
deriving DecidableEq, Repr

/-- Outcome of one `pd.read_csv` attempt on a payload under a fixed
encoding: success, a `UnicodeDecodeError`, a `pd.errors.ParserError`,
or some other exception. -/
inductive CsvOutcome where
  | ok (t : Table)
  | decodeError
  | parseError
  | otherError
deriving DecidableEq, Repr

/-- A candidate byte payload, abstracted by the outcome of the pandas
read attempt under each encoding the program may try: default UTF-8,
and the Latin-1 fallback. -/
structure Payload where
  utf8 : CsvOutcome
  latin1 : CsvOutcome
deriving DecidableEq, Repr

/-- Embedding of `read_csv_content` (src/app.py lines 33-46).

    try: return pd.read_csv(file_buffer)            -- UTF-8 default
    except UnicodeDecodeError:
        file_buffer.seek(0)
        return pd.read_csv(file_buffer, encoding='latin-1')
    except pd.errors.ParserError: return None
    except Exception: return None

Python semantics: an exception raised inside the `except
UnicodeDecodeError` handler (the Latin-1 retry) is NOT caught by the
sibling `except` clauses, so it propagates to the caller; hence the
`.error` results in the `decodeError` branch. -/
def read_csv_content (p : Payload) : Except PyError (Option Table) :=
  match p.utf8 with
  | .ok t => .ok (some t)
  | .parseError => .ok none
  | .otherError => .ok none
  | .decodeError =>
    match p.latin1 with
    | .ok t => .ok (some t)
    | .parseError => .error .parserError
    | .otherError => .error .otherError
    | .decodeError => .error .unicodeDecodeError

/-- Embedding of Python `str.lower()` (ASCII range, which covers the
entry names the program filters). -/
def pyLower (s : String) : String := ⟨s.data.map Char.toLower⟩

/-- Embedding of Python `str.startswith(p)`. -/
def pyStartsWith (s p : String) : Bool := p.data.isPrefixOf s.data

/-- Embedding of Python `str.endswith(p)`: the last `len p` characters
equal `p`. -/
def pyEndsWith (s p : String) : Bool :=
  s.data.drop (s.data.length - p.data.length) == p.data

/-- The archive-entry filter of `process_file_data` (src/app.py line 61):
`sub_file.lower().endswith('.csv') and not sub_file.startswith('__MACOSX')
and not sub_file.startswith('.')`. -/
def goodEntryName (name : String) : Bool :=
  pyEndsWith (pyLower name) ".csv"
    && !(pyStartsWith name "__MACOSX")
    && !(pyStartsWith name ".")

/-- Python dict assignment `d[k] = v`: replace the value in place when the
key is present (insertion position kept), otherwise append the binding. -/
def dict_insert (m : List (String × Table)) (k : String) (v : Table) :
    List (String × Table) :=
  if m.any (fun q => q.1 == k) then
    m.map (fun q => if q.1 == k then (k, v) else q)
  else
    m ++ [(k, v)]

/-- Python `d.update(new)`: insert the bindings of `new` in order. -/
def dict_update (m new : List (String × Table)) : List (String × Table) :=
  new.foldl (fun acc q => dict_insert acc q.1 q.2) m

/-- A raw byte payload as `process_file_data` classifies it by content:
either `zipfile.is_zipfile` is true and the container opens, giving named
entries; or it is true but `zipfile.ZipFile` raises `BadZipFile`; or it is
false and the payload is read as a single CSV. -/
inductive FilePayload where
  | zip (entries : List (String × Payload))
  | badZip
  | flat (p : Payload)
deriving DecidableEq, Repr

/-- Result of `process_file_data`: the `processed_dfs` dict plus the
diagnostics shown with `st.error`. -/
structure ProcessResult where
  tables : List (String × Table)
  diagnostics : List String
deriving DecidableEq, Repr, Inhabited

/-- Diagnostic emitted for a corrupted zip (src/app.py line 67). -/
def corruptZipMsg (fileName : String) : String :=
  "Error: The file " ++ fileName ++ " appears to be a corrupted zip."

/-- One iteration of the archive loop of `process_file_data` (src/app.py
lines 60-65): filter the entry name, read it, keep the table when reading
succeeded; an exception escaping `read_csv_content` propagates (the
enclosing `try` only catches `BadZipFile`). -/
def zipStep (acc : ProcessResult) (e : String × Payload) :
    Except PyError ProcessResult :=
  if goodEntryName e.1 then
    match read_csv_content e.2 with
    | .error err => .error err
    | .ok none => .ok acc
    | .ok (some t) => .ok ⟨dict_insert acc.tables e.1 t, acc.diagnostics⟩
  else
    .ok acc

/-- Embedding of `process_file_data` (src/app.py lines 48-76). -/
def process_file_data (fileName : String) (content : FilePayload) :
    Except PyError ProcessResult :=
  match content with
  | .badZip => .ok ⟨[], [corruptZipMsg fileName]⟩
  | .zip entries => entries.foldlM zipStep ⟨[], []⟩
  | .flat p =>
    match read_csv_content p with
    | .error err => .error err
    | .ok none => .ok ⟨[], []⟩
    | .ok (some t) => .ok ⟨[(fileName, t)], []⟩

/-- One iteration of the upload loop (src/app.py lines 87-89): process
one uploaded payload and merge the resulting tables into `loaded_dfs`
with `dict.update`; an exception escaping `process_file_data`
propagates. -/
def loadStep (acc : List (String × Table)) (f : String × FilePayload) :
    Except PyError (List (String × Table)) :=
  match process_file_data f.1 f.2 with
  | .error err => .error err
  | .ok res => .ok (dict_update acc res.tables)

/-- Embedding of the upload loop (src/app.py lines 86-89) over a list of
independently submitted payloads. -/
def load_all (files : List (String × FilePayload)) :
    Except PyError (List (String × Table)) :=
  files.foldlM loadStep []

/-- Embedding of `normalize_id_column` (src/app.py lines 22-31): check for
the column 'Permit Number', then 'Record Number', else `None`. -/
def normalize_id_column (df : Table) : Option String :=
  if "Permit Number" ∈ df.columns then some "Permit Number"
  else if "Record Number" ∈ df.columns then some "Record Number"
  else none

/-- The candidate identifier column names, in the priority order the code
checks them. -/
def candidate_id_columns : List String := ["Permit Number", "Record Number"]

/-- Cell of a row under a named column: position lookup through the
table's column list (a DataFrame column access), `none` when the column
is absent. -/
def cell_value (t : Table) (row : List (Option String)) (c : String) :
    Option String :=
  match t.columns.findIdx? (· == c) with
  | some i => row.getD i none
  | none => none

/-- Projection of a row onto a list of key columns, as
`df.duplicated(subset=cols)` compares rows. -/
def projRow (t : Table) (row : List (Option String)) (cols : List String) :
    List (Option String) :=
  cols.map (cell_value t row)

/-- Semantics of `df.duplicated(subset=cols_to_check, keep=False)`
(src/app.py line 169): a row is marked iff at least two rows of the table
(itself included) share its projection onto the key columns; pandas
treats null as equal to null here. -/
def duplicated_mask (t : Table) (cols : List String) : List Bool :=
  t.rows.map (fun r =>
    decide (2 ≤ t.rows.countP (fun r2 => projRow t r2 cols == projRow t r cols)))

/-- Embedding of the duplicate-analysis block (src/app.py lines 168-178):
when the selected `cols_to_check` is empty the whole block is skipped
(`if cols_to_check:` is false), yielding no audit result (`none`);
otherwise the displayed `dup_count` is the number of marked rows. -/
def dup_analysis (t : Table) (cols_to_check : List String) : Option Nat :=
  if cols_to_check.isEmpty then none
  else some ((duplicated_mask t cols_to_check).count true)

/-- Embedding of `all_ids_union = set().union(*file_id_sets.values())`
(src/app.py line 189): the union of all per-file identifier sets. -/
def all_ids_union (sets : List (Finset String)) : Finset String :=
  sets.foldr (fun s acc => s ∪ acc) ∅

/-- One row of the consistency summary table (src/app.py lines 208-213). -/
structure SummaryRow where
  fileName : String
  status : String
  totalUniqueIds : Nat
  missingCount : Nat
deriving DecidableEq, Repr

/-- Embedding of the `summary_data` loop (src/app.py lines 194-213): per
file, `missing_ids = all_ids_union - f_ids`; when missing is non-empty the
status is inconsistent with `count_missing = len(missing_ids)`, else the
status is complete with `count_missing = 0`. -/
def summary_data (file_id_sets : List (String × Finset String)) :
    List SummaryRow :=
  let union := all_ids_union (file_id_sets.map Prod.snd)
  file_id_sets.map (fun p =>
    let missing := union \ p.2
    if missing ≠ ∅ then ⟨p.1, "❌ Inconsistent", p.2.card, missing.card⟩
    else ⟨p.1, "✅ Complete", p.2.card, 0⟩)

/-- One block of the detailed-mismatch breakdown (src/app.py lines
228-253): the file, the identifiers missing from it, and the
`source_files` list displayed with it. -/
structure GapReport where
  fileName : String
  missing : Finset String
  sourceFiles : List String
deriving DecidableEq, Inhabited

/-- Embedding of the detailed-breakdown loop (src/app.py lines 228-253):
for each file whose `missing_from_this_file = all_ids_union - f_ids` is
non-empty, `source_files` collects every OTHER file whose identifier set
meets the missing set (`common_missing` non-empty). -/
def detailed_mismatches (file_id_sets : List (String × Finset String)) :
    List GapReport :=
  let union := all_ids_union (file_id_sets.map Prod.snd)
  file_id_sets.filterMap (fun p =>
    let missing := union \ p.2
    if missing ≠ ∅ then
      some ⟨p.1, missing,
        (file_id_sets.filter
          (fun q => decide (q.1 ≠ p.1) && decide (missing ∩ q.2 ≠ ∅))).map Prod.fst⟩
    else none)

/-- Per-identifier provenance, as the specification describes it: the
other files whose identifier set contains this one identifier. -/
def provenance (file_id_sets : List (String × Finset String))
    (fname id : String) : List String :=
  (file_id_sets.filter
    (fun q => decide (q.1 ≠ fname) && decide (id ∈ q.2))).map Prod.fst

/-- Modelled from the spec: the DriftAnalyzer component (spec section 4.5)
has no code under src/ (src/app.py contains no snapshot comparison), so
its fill-rate computation is modelled from the specification words: fill
rate = non-null row count / total row count x 100, defined as 0 when the
table has no rows. -/
def fill_rate (t : Table) (c : String) : ℚ :=
  if t.rows.length = 0 then 0
  else ((t.rows.countP (fun r => (cell_value t r c).isSome) : ℚ)
          / (t.rows.length : ℚ)) * 100

/-! ## Concrete sample data used in witnesses and counterexamples -/

/-- A small well-formed table. -/
def sampleTable : Table := ⟨["Permit Number"], [[some "1"]]⟩

/-- A payload that decodes cleanly under either encoding. -/
def goodPayload : Payload := ⟨.ok sampleTable, .ok sampleTable⟩

/-- A one-column table whose two rows are identical. -/
def dupTable : Table := ⟨["a"], [[some "1"], [some "1"]]⟩

/-- Identifier sets of three files: A holds "1", B holds "2", C holds
nothing. -/
def setsC2 : List (String × Finset String) :=
  [("A", {"1"}), ("B", {"2"}), ("C", ∅)]

/-! ## Helper lemmas -/

theorem all_ids_union_cons (a : Finset String) (l : List (Finset String)) :
    all_ids_union (a :: l) = a ∪ all_ids_union l := rfl

theorem subset_all_ids_union {s : Finset String} {l : List (Finset String)}
    (h : s ∈ l) : s ⊆ all_ids_union l := by
  induction l with
  | nil => cases h
  | cons a l ih =>
    rw [all_ids_union_cons]
    rcases List.mem_cons.mp h with h | h
    · exact h ▸ Finset.subset_union_left
    · exact (ih h).trans Finset.subset_union_right

theorem count_true_map {α : Type} (l : List α) (f : α → Bool) :
    (l.map f).count true = l.countP f := by
  induction l with
  | nil => rfl
  | cons a l ih =>
    cases h : f a <;>
      simp [List.count_cons, List.countP_cons, ih, h]

theorem loadStep_badZip (acc : List (String × Table)) (n : String) :
    loadStep acc (n, FilePayload.badZip) = Except.ok acc := rfl

theorem foldlM_loadStep_badZip (n : String)
    (fs2 : List (String × FilePayload)) :
    ∀ (fs1 : List (String × FilePayload)) (acc : List (String × Table)),
      (fs1 ++ (n, FilePayload.badZip) :: fs2).foldlM loadStep acc
        = (fs1 ++ fs2).foldlM loadStep acc := by
  intro fs1
  induction fs1 with
  | nil =>
    intro acc
    rw [List.nil_append, List.nil_append, List.foldlM_cons, loadStep_badZip]
    rfl
  | cons f fs1 ih =>
    intro acc
    rw [List.cons_append, List.cons_append, List.foldlM_cons, List.foldlM_cons]
    cases h : loadStep acc f with
    | error err => rfl
    | ok a => exact ih a

theorem mem_dict_insert_names {n : String} {m : List (String × Table)}
    {k : String} {v : Table}
    (h : n ∈ (dict_insert m k v).map Prod.fst) :
    n ∈ m.map Prod.fst ∨ n = k := by
  unfold dict_insert at h
  by_cases hc : m.any (fun q => q.1 == k)
  · rw [if_pos hc, List.map_map] at h
    obtain ⟨q, hq, hfq⟩ := List.mem_map.mp h
    by_cases hk : (q.1 == k) = true
    · right
      simp only [Function.comp, hk, if_true] at hfq
      exact hfq.symm
    · left
      simp only [Function.comp, hk, if_false] at hfq
      exact List.mem_map.mpr ⟨q, hq, hfq⟩
  · rw [if_neg hc, List.map_append] at h
    rcases List.mem_append.mp h with h | h
    · exact Or.inl h
    · right
      simpa using h

theorem zip_foldlM_invariant (entries : List (String × Payload)) :
    ∀ (acc res : ProcessResult),
      entries.foldlM zipStep acc = Except.ok res →
      (∀ n, n ∈ res.tables.map Prod.fst →
        n ∈ acc.tables.map Prod.fst ∨ goodEntryName n = true) ∧
      res.diagnostics = acc.diagnostics := by
  induction entries with
  | nil =>
    intro acc res h
    rw [List.foldlM_nil] at h
    cases h
    exact ⟨fun n hn => Or.inl hn, rfl⟩
  | cons e es ih =>
    intro acc res h
    rw [List.foldlM_cons] at h
    unfold zipStep at h
    by_cases hg : goodEntryName e.1
    · rw [if_pos hg] at h
      cases hr : read_csv_content e.2 with
      | error err =>
        rw [hr] at h
        exact absurd h (by simp [Bind.bind, Except.bind])
      | ok od =>
        cases od with
        | none =>
          rw [hr] at h
          exact ih acc res h
        | some t =>
          rw [hr] at h
          obtain ⟨hnames, hdiag⟩ :=
            ih ⟨dict_insert acc.tables e.1 t, acc.diagnostics⟩ res h
          refine ⟨fun n hn => ?_, hdiag⟩
          rcases hnames n hn with hmem | hgood
          · rcases mem_dict_insert_names hmem with h2 | h2
            · exact Or.inl h2
            · exact Or.inr (h2 ▸ hg)
          · exact Or.inr hgood
    · rw [if_neg hg] at h
      exact ih acc res h

/-! ## Claim theorems -/

/-- Claim C1: in the consistency summary, each row's missing-count is the
size of the union of all identifier sets minus that file's own set, and
the row's status is the complete marker iff the missing-count is 0 (and
the inconsistent marker iff it is non-zero) — both directions. -/
theorem c1_reconciliation_status (sets : List (String × Finset String)) :
    List.Forall₂
      (fun p row =>
        row.missingCount = (all_ids_union (sets.map Prod.snd) \ p.2).card ∧
        (row.status = "✅ Complete" ↔ row.missingCount = 0) ∧
        (row.status = "❌ Inconsistent" ↔ row.missingCount ≠ 0))
      sets (summary_data sets) := by
  simp only [summary_data]
  rw [List.forall₂_map_right_iff, List.forall₂_same]
  intro p hp
  by_cases hm : all_ids_union (sets.map Prod.snd) \ p.2 = ∅
  · rw [if_neg (not_not.mpr hm)]
    refine ⟨by rw [hm, Finset.card_empty], by simp, ?_⟩
    constructor
    · intro h
      exact absurd h (by simp)
    · intro h
      exact absurd rfl h
  · rw [if_pos hm]
    have hcard : (all_ids_union (sets.map Prod.snd) \ p.2).card ≠ 0 :=
      fun h => hm (Finset.card_eq_zero.mp h)
    refine ⟨rfl, ?_, ?_⟩
    · constructor
      · intro h
        exact absurd h (by simp)
      · intro h
        exact absurd h hcard
    · exact ⟨fun _ => hcard, fun _ => rfl⟩

/-- Claim C3: the code attempts UTF-8 first and retries once with Latin-1
on decode failure, and a parse failure in the UTF-8 path is dropped as
`none`; but at the failing input (a payload whose UTF-8 read raises
`UnicodeDecodeError` and whose Latin-1 retry raises `ParserError`) the
retry runs inside the `except UnicodeDecodeError` handler, so the
`ParserError` escapes `read_csv_content` as a fatal exception instead of
the entry being dropped — contradicting the claim. -/
theorem c3_read_csv_behavior : ∀ (t : Table) (l : CsvOutcome),
    read_csv_content ⟨.ok t, l⟩ = .ok (some t) ∧
    read_csv_content ⟨.parseError, l⟩ = .ok none ∧
    read_csv_content ⟨.decodeError, .ok t⟩ = .ok (some t) ∧
    read_csv_content ⟨.decodeError, .parseError⟩ = .error .parserError := by
  intro t l
  exact ⟨rfl, rfl, rfl, rfl⟩

/-- Claim C6: identifier resolution returns the first candidate column
name, in the priority order 'Permit Number' then 'Record Number', that is
present among the table's columns (`none` when neither is); and it
depends only on the declared column names, never on row contents. -/
theorem c6_identifier_resolution :
    (∀ df : Table,
      normalize_id_column df
        = candidate_id_columns.find? (fun c => decide (c ∈ df.columns))) ∧
    (∀ df₁ df₂ : Table, df₁.columns = df₂.columns →
      normalize_id_column df₁ = normalize_id_column df₂) ∧
    (∀ df : Table, normalize_id_column df = none ↔
      ("Permit Number" ∉ df.columns ∧ "Record Number" ∉ df.columns)) := by
  refine ⟨?_, ?_, ?_⟩
  · intro df
    by_cases h1 : "Permit Number" ∈ df.columns <;>
      by_cases h2 : "Record Number" ∈ df.columns <;>
      simp [normalize_id_column, candidate_id_columns, List.find?, h1, h2]
  · intro df₁ df₂ h
    simp only [normalize_id_column, h]
  · intro df
    by_cases h1 : "Permit Number" ∈ df.columns <;>
      by_cases h2 : "Record Number" ∈ df.columns <;>
      simp [normalize_id_column, h1, h2]

/-- Witness for C6 at a concrete pair of tables: same columns, different
rows, same resolution. -/
theorem c6_identifier_resolution_witness :
    normalize_id_column ⟨["Record Number"], [[some "7"]]⟩
      = normalize_id_column ⟨["Record Number"], []⟩ :=
  c6_identifier_resolution.2.1 ⟨["Record Number"], [[some "7"]]⟩
    ⟨["Record Number"], []⟩ rfl

/-- Claim C2 counterexample: at `setsC2`, file C is missing both "1" and
"2"; the tables containing the specific identifier "1" are exactly
`["A"]`, but the report's source list for C is the per-table `["A", "B"]`
— the report does not state, for that individual missing identifier,
which other tables contain it. -/
theorem c2_counterexample :
    ((detailed_mismatches setsC2).getD 2 default).fileName = "C" ∧
    "1" ∈ ((detailed_mismatches setsC2).getD 2 default).missing ∧
    provenance setsC2 "C" "1" = ["A"] ∧
    ((detailed_mismatches setsC2).getD 2 default).sourceFiles
      ≠ provenance setsC2 "C" "1" := by
  decide

/-- Claim C2 amended: for every table with a non-empty gap, the report
carries one per-table source list: the other tables whose identifier set
contains at least one of that table's missing identifiers (not
per-identifier provenance). -/
theorem c2_amended_per_table_sources (sets : List (String × Finset String))
    (e : GapReport) (he : e ∈ detailed_mismatches sets) (g : String) :
    g ∈ e.sourceFiles ↔
      ∃ s, (g, s) ∈ sets ∧ g ≠ e.fileName ∧ e.missing ∩ s ≠ ∅ := by
  simp only [detailed_mismatches, List.mem_filterMap] at he
  obtain ⟨p, hp, hpe⟩ := he
  by_cases hm : all_ids_union (sets.map Prod.snd) \ p.2 = ∅
  · rw [if_neg (not_not.mpr hm)] at hpe
    cases hpe
  · rw [if_pos hm] at hpe
    injection hpe with hpe
    subst hpe
    constructor
    · intro hg
      obtain ⟨q, hq, hq1⟩ := List.mem_map.mp hg
      subst hq1
      obtain ⟨hqs, hpred⟩ := List.mem_filter.mp hq
      simp only [Bool.and_eq_true, decide_eq_true_eq] at hpred
      refine ⟨q.2, ?_, hpred.1, hpred.2⟩
      rw [Prod.mk.eta]
      exact hqs
    · rintro ⟨s, hs, hne, hint⟩
      refine List.mem_map.mpr ⟨(g, s), List.mem_filter.mpr ⟨hs, ?_⟩, rfl⟩
      simp only [Bool.and_eq_true, decide_eq_true_eq]
      exact ⟨hne, hint⟩

/-- Witness for the amended C2 at the concrete gap report of file C. -/
theorem c2_amended_witness :
    "A" ∈ (GapReport.mk "C" {"1", "2"} ["A", "B"]).sourceFiles ↔
      ∃ s, ("A", s) ∈ setsC2 ∧
        "A" ≠ (GapReport.mk "C" {"1", "2"} ["A", "B"]).fileName ∧
        (GapReport.mk "C" {"1", "2"} ["A", "B"]).missing ∩ s ≠ ∅ :=
  c2_amended_per_table_sources setsC2 ⟨"C", {"1", "2"}, ["A", "B"]⟩
    (by decide) "A"

/-- Claim C5 counterexample: on the two-row table whose rows are equal, an
empty key-column selection makes the code skip the duplicate audit
entirely (`none`); the whole-row audit the claim promises would instead
report both rows as duplicates (`some 2`). -/
theorem c5_counterexample :
    dup_analysis dupTable [] = none ∧
    dup_analysis dupTable dupTable.columns = some 2 ∧
    dup_analysis dupTable [] ≠ dup_analysis dupTable dupTable.columns := by
  refine ⟨rfl, by decide, by decide⟩

/-- Claim C5 amended: with an empty key-column set the duplicate audit is
skipped, not performed on the full column set — the audit runs iff the
key set is non-empty, and then it reports the number of rows whose key
projection occurs at least twice in the table. -/
theorem c5_amended_empty_key_skips (t : Table) (cols : List String) :
    (dup_analysis t cols = none ↔ cols = []) ∧
    (cols ≠ [] →
      dup_analysis t cols
        = some (t.rows.countP (fun r =>
            decide (2 ≤ t.rows.countP
              (fun r2 => projRow t r2 cols == projRow t r cols))))) := by
  cases cols with
  | nil => exact ⟨by simp [dup_analysis], fun h => absurd rfl h⟩
  | cons c cs =>
    constructor
    · simp [dup_analysis]
    · intro _
      simp only [dup_analysis, List.isEmpty_cons, if_false, Bool.false_eq_true,
        duplicated_mask]
      rw [count_true_map]

/-- Witness for the amended C5 at the concrete duplicate table. -/
theorem c5_amended_witness :
    dup_analysis dupTable ["a"]
      = some (dupTable.rows.countP (fun r =>
          decide (2 ≤ dupTable.rows.countP
            (fun r2 => projRow dupTable r2 ["a"] == projRow dupTable r ["a"])))) :=
  (c5_amended_empty_key_skips dupTable ["a"]).2 (by decide)

/-- Claim C8: the size of the union of the per-table identifier sets is
at least the maximum of the individual set sizes and at most their sum. -/
theorem c8_union_size_bounds (l : List (Finset String)) :
    (l.map Finset.card).foldr max 0 ≤ (all_ids_union l).card ∧
    (all_ids_union l).card ≤ (l.map Finset.card).sum := by
  induction l with
  | nil => simp [all_ids_union]
  | cons a l ih =>
    rw [all_ids_union_cons]
    constructor
    · simp only [List.map_cons, List.foldr_cons]
      exact max_le
        (Finset.card_le_card Finset.subset_union_left)
        (le_trans ih.1 (Finset.card_le_card Finset.subset_union_right))
    · simp only [List.map_cons, List.sum_cons]
      have h2 := ih.2
      exact le_trans (Finset.card_union_le a (all_ids_union l)) (by omega)

/-- Claim C9: the fill rate of every column of every table lies in
[0, 100], and for a table with zero rows it is exactly 0 for every
column (no division-by-zero error). -/
theorem c9_fill_rate_bounds : ∀ (t : Table) (c : String),
    (0 ≤ fill_rate t c ∧ fill_rate t c ≤ 100) ∧
    (∀ cols : List String, fill_rate ⟨cols, []⟩ c = 0) := by
  intro t c
  constructor
  · unfold fill_rate
    by_cases h : t.rows.length = 0
    · simp [h]
    · simp only [h, if_false]
      have hpos : (0 : ℚ) < (t.rows.length : ℚ) := by
        exact_mod_cast Nat.pos_of_ne_zero h
      have hle : ((t.rows.countP (fun r => (cell_value t r c).isSome)) : ℚ)
          ≤ (t.rows.length : ℚ) := by
        exact_mod_cast List.countP_le_length _
      constructor
      · positivity
      · have hdiv : ((t.rows.countP (fun r => (cell_value t r c).isSome)) : ℚ)
            / (t.rows.length : ℚ) ≤ 1 := (div_le_one hpos).mpr hle
        nlinarith
  · intro cols
    simp [fill_rate]

/-- Claim C4: a payload that passes the zip magic check but whose
container is corrupted never raises: it yields an empty table mapping
plus the corrupted-zip diagnostic, and removing (or adding) such a
payload anywhere in a multi-payload run leaves the tables loaded from the
other, independently-submitted payloads unchanged. -/
theorem c4_corrupt_archive :
    (∀ name : String,
      process_file_data name FilePayload.badZip
        = Except.ok ⟨[], [corruptZipMsg name]⟩) ∧
    (∀ (fs1 fs2 : List (String × FilePayload)) (n : String),
      load_all (fs1 ++ (n, FilePayload.badZip) :: fs2)
        = load_all (fs1 ++ fs2)) := by
  exact ⟨fun name => rfl, fun fs1 fs2 n => foldlM_loadStep_badZip n fs2 fs1 []⟩

/-- Claim C7: whenever the archive branch succeeds, every ingested table
name passed the extension/metadata/hidden filter, and nothing is reported
for the skipped entries (no diagnostics at all from this branch); the
archive holding a.csv, b.txt and __MACOSX/a.csv yields exactly the one
table a.csv. -/
theorem c7_archive_filter :
    (∀ (fname : String) (entries : List (String × Payload))
        (res : ProcessResult),
      process_file_data fname (.zip entries) = Except.ok res →
      (∀ n, n ∈ res.tables.map Prod.fst → goodEntryName n = true) ∧
      res.diagnostics = []) ∧
    process_file_data "archive.zip"
        (.zip [("a.csv", goodPayload), ("b.txt", goodPayload),
          ("__MACOSX/a.csv", goodPayload)])
      = Except.ok ⟨[("a.csv", sampleTable)], []⟩ := by
  constructor
  · intro fname entries res h
    obtain ⟨hnames, hdiag⟩ := zip_foldlM_invariant entries ⟨[], []⟩ res h
    refine ⟨fun n hn => ?_, hdiag⟩
    rcases hnames n hn with hmem | hgood
    · simp at hmem
    · exact hgood
  · rfl

/-- Witness for C7: the general part applied to the concrete scenario
archive shows its single ingested entry name passes the filter. -/
theorem c7_archive_filter_witness : goodEntryName "a.csv" = true :=
  (c7_archive_filter.1 "archive.zip"
      [("a.csv", goodPayload), ("b.txt", goodPayload),
        ("__MACOSX/a.csv", goodPayload)]
      ⟨[("a.csv", sampleTable)], []⟩ rfl).1 "a.csv" (by simp)

/-- Claim C10: the archive-entry extension test lowercases the entry name
before comparing, so any letter-case variant of the .csv extension is
accepted (when the metadata-directory and hidden-file exclusions do not
apply), and an archive entry named DATA.CSV is ingested. -/
theorem c10_case_insensitive_extension :
    (∀ name e : String, (∃ pre : List Char, name.data = pre ++ e.data) →
      pyLower e = ".csv" →
      pyStartsWith name "__MACOSX" = false →
      pyStartsWith name "." = false →
      goodEntryName name = true) ∧
    process_file_data "upload.zip" (.zip [("DATA.CSV", goodPayload)])
      = Except.ok ⟨[("DATA.CSV", sampleTable)], []⟩ := by
  constructor
  · rintro name e ⟨pre, hpre⟩ hlow h1 h2
    have hed : e.data.map Char.toLower = ".csv".data :=
      congrArg String.data hlow
    have hdata : (pyLower name).data
        = pre.map Char.toLower ++ ".csv".data := by
      simp [pyLower, hpre, hed]
    unfold goodEntryName
    rw [h1, h2]
    simp only [Bool.not_false, Bool.and_true]
    unfold pyEndsWith
    rw [hdata, List.length_append, Nat.add_sub_cancel, List.drop_left]
    simp
  · rfl

/-- Witness for C10: the entry name DATA.CSV passes the filter. -/
theorem c10_case_insensitive_extension_witness :
    goodEntryName "DATA.CSV" = true :=
  c10_case_insensitive_extension.1 "DATA.CSV" ".CSV"
    ⟨"DATA".data, by decide⟩ (by decide) (by decide) (by decide)

end DataQA
